import Mathlib

/-!
Verification of the multi-object tracker in
`src/ai/object_detection_api.py` (class `ObjectTracker`).

Python dicts are modelled as insertion-ordered association lists with
unique keys (`lookupKey` reads the first entry with a key, `updateEntry`
rewrites it in place, `eraseKey` deletes it).  Python floats are modelled
as rationals (`ℚ`); frame identifiers and wall-clock times as integers.
-/

namespace SmartRoad

/-! ### Association-list model of Python dicts -/

def lookupKey {κ α : Type} [DecidableEq κ] (k : κ) : List (κ × α) → Option α
  | [] => none
  | p :: rest => if p.1 = k then some p.2 else lookupKey k rest

def updateEntry {κ α : Type} [DecidableEq κ] (k : κ) (f : α → α) : List (κ × α) → List (κ × α)
  | [] => []
  | p :: rest => if p.1 = k then (p.1, f p.2) :: rest else p :: updateEntry k f rest

def eraseKey {κ α : Type} [DecidableEq κ] (k : κ) : List (κ × α) → List (κ × α)
  | [] => []
  | p :: rest => if p.1 = k then eraseKey k rest else p :: eraseKey k rest

theorem lookupKey_append_left {κ α : Type} [DecidableEq κ] (k : κ) (v : α)
    (l₁ l₂ : List (κ × α)) (h : lookupKey k l₁ = some v) :
    lookupKey k (l₁ ++ l₂) = some v := by
  induction l₁ with
  | nil => simp [lookupKey] at h
  | cons p rest ih =>
    simp only [lookupKey, List.cons_append] at h ⊢
    split at h <;> split <;> simp_all [ih]

theorem lookupKey_append_none {κ α : Type} [DecidableEq κ] (k : κ)
    (l₁ l₂ : List (κ × α)) (h : lookupKey k l₁ = none) :
    lookupKey k (l₁ ++ l₂) = lookupKey k l₂ := by
  induction l₁ with
  | nil => simp
  | cons p rest ih =>
    simp only [lookupKey, List.cons_append] at h ⊢
    split at h <;> split <;> simp_all [ih]

theorem lookupKey_none_iff {κ α : Type} [DecidableEq κ] (k : κ) (l : List (κ × α)) :
    lookupKey k l = none ↔ k ∉ l.map Prod.fst := by
  induction l with
  | nil => simp [lookupKey]
  | cons p rest ih =>
    simp only [lookupKey, List.map_cons, List.mem_cons]
    split <;> simp_all [eq_comm]

theorem lookupKey_mem {κ α : Type} [DecidableEq κ] {k : κ} {v : α} {l : List (κ × α)}
    (h : lookupKey k l = some v) : (k, v) ∈ l := by
  induction l with
  | nil => simp [lookupKey] at h
  | cons p rest ih =>
    simp only [lookupKey] at h
    split at h
    · rename_i heq
      cases h
      simp only [List.mem_cons]
      left
      rw [← heq]
    · simp [List.mem_cons, ih h]

theorem mem_lookupKey {κ α : Type} [DecidableEq κ] {k : κ} {v : α} {l : List (κ × α)}
    (hnd : (l.map Prod.fst).Nodup) (h : (k, v) ∈ l) : lookupKey k l = some v := by
  induction l with
  | nil => simp at h
  | cons p rest ih =>
    simp only [List.map_cons, List.nodup_cons] at hnd
    rcases List.mem_cons.mp h with heq | hmem
    · subst heq
      simp [lookupKey]
    · have hk : p.1 ≠ k := by
        intro hk
        exact hnd.1 (hk ▸ (List.mem_map.mpr ⟨(k, v), hmem, rfl⟩))
      simp [lookupKey, hk, ih hnd.2 hmem]

theorem lookupKey_updateEntry_self {κ α : Type} [DecidableEq κ] (k : κ) (f : α → α)
    (l : List (κ × α)) :
    lookupKey k (updateEntry k f l) = (lookupKey k l).map f := by
  induction l with
  | nil => simp [lookupKey, updateEntry]
  | cons p rest ih =>
    simp only [updateEntry]
    split <;> simp_all [lookupKey]

theorem lookupKey_updateEntry_other {κ α : Type} [DecidableEq κ] {k k' : κ} (f : α → α)
    (l : List (κ × α)) (h : k' ≠ k) :
    lookupKey k' (updateEntry k f l) = lookupKey k' l := by
  induction l with
  | nil => simp [updateEntry]
  | cons p rest ih =>
    simp only [updateEntry]
    split
    · rename_i hpk
      have h1 : ¬ (p.1 = k') := fun hh => h (hh.symm.trans hpk)
      simp [lookupKey, h1]
    · simp only [lookupKey]
      split <;> simp [ih]

theorem keys_updateEntry {κ α : Type} [DecidableEq κ] (k : κ) (f : α → α)
    (l : List (κ × α)) :
    (updateEntry k f l).map Prod.fst = l.map Prod.fst := by
  induction l with
  | nil => rfl
  | cons p rest ih =>
    simp only [updateEntry]
    split <;> simp_all

theorem lookupKey_eraseKey {κ α : Type} [DecidableEq κ] (k k' : κ) (l : List (κ × α)) :
    lookupKey k (eraseKey k' l) = if k = k' then none else lookupKey k l := by
  induction l with
  | nil => simp [eraseKey, lookupKey]
  | cons p rest ih =>
    simp only [eraseKey]
    by_cases hp : p.1 = k'
    · rw [if_pos hp, ih]
      by_cases hkk : k = k'
      · simp [hkk]
      · have hpk : ¬ (p.1 = k) := fun hh => hkk (hh.symm.trans hp)
        simp [hkk, lookupKey, hpk]
    · rw [if_neg hp]
      simp only [lookupKey]
      by_cases hpk : p.1 = k
      · have hkk : ¬ (k = k') := fun hh => hp (hpk.trans hh)
        simp [hpk, hkk]
      · simp [hpk, ih]

/-! ### Bounding boxes and IoU (`ObjectTracker.calculate_iou`) -/

structure Box where
  x1 : ℚ
  y1 : ℚ
  x2 : ℚ
  y2 : ℚ
deriving DecidableEq, Repr

/-- `max(det["bbox"])` over the four coordinates `[x1, y1, x2, y2]`. -/
def Box.maxCoord (b : Box) : ℚ :=
  max (max b.x1 b.y1) (max b.x2 b.y2)

/-- A geometrically well-formed box (`x1 < x2` and `y1 < y2`). -/
def Box.valid (b : Box) : Prop := b.x1 < b.x2 ∧ b.y1 < b.y2

/-- Embedding of `ObjectTracker.calculate_iou` (source lines 65-86). -/
def calculate_iou (box1 box2 : Box) : ℚ :=
  let x1 := max box1.x1 box2.x1
  let y1 := max box1.y1 box2.y1
  let x2 := min box1.x2 box2.x2
  let y2 := min box1.y2 box2.y2
  if x2 < x1 ∨ y2 < y1 then 0
  else
    let intersection_area := (x2 - x1) * (y2 - y1)
    let box1_area := (box1.x2 - box1.x1) * (box1.y2 - box1.y1)
    let box2_area := (box2.x2 - box2.x1) * (box2.y2 - box2.y1)
    let union_area := box1_area + box2_area - intersection_area
    if union_area = 0 then 0
    else intersection_area / union_area

/-- Mathematical area of a box. -/
def boxArea (b : Box) : ℚ := (b.x2 - b.x1) * (b.y2 - b.y1)

/-- Mathematical area of the intersection of two boxes (0 when disjoint). -/
def interArea (b1 b2 : Box) : ℚ :=
  max 0 (min b1.x2 b2.x2 - max b1.x1 b2.x1) * max 0 (min b1.y2 b2.y2 - max b1.y1 b2.y1)

theorem calculate_iou_eq_formula (b1 b2 : Box) :
    calculate_iou b1 b2 = interArea b1 b2 / (boxArea b1 + boxArea b2 - interArea b1 b2) := by
  unfold calculate_iou interArea boxArea
  by_cases hx : min b1.x2 b2.x2 < max b1.x1 b2.x1
  · have h0 : max (0 : ℚ) (min b1.x2 b2.x2 - max b1.x1 b2.x1) = 0 :=
      max_eq_left (by linarith)
    simp [hx, h0]
  · by_cases hy : min b1.y2 b2.y2 < max b1.y1 b2.y1
    · have h0 : max (0 : ℚ) (min b1.y2 b2.y2 - max b1.y1 b2.y1) = 0 :=
        max_eq_left (by linarith)
      simp [hx, hy, h0]
    · push_neg at hx hy
      have hx' : max (0 : ℚ) (min b1.x2 b2.x2 - max b1.x1 b2.x1)
          = min b1.x2 b2.x2 - max b1.x1 b2.x1 := max_eq_right (by linarith)
      have hy' : max (0 : ℚ) (min b1.y2 b2.y2 - max b1.y1 b2.y1)
          = min b1.y2 b2.y2 - max b1.y1 b2.y1 := max_eq_right (by linarith)
      have hcond : ¬ (min b1.x2 b2.x2 < max b1.x1 b2.x1 ∨
          min b1.y2 b2.y2 < max b1.y1 b2.y1) := by
        push_neg
        exact ⟨hx, hy⟩
      simp only [hcond, if_false, hx', hy']
      split
      · rename_i hu
        rw [show ((b1.x2 - b1.x1) * (b1.y2 - b1.y1) + (b2.x2 - b2.x1) * (b2.y2 - b2.y1)
            - (min b1.x2 b2.x2 - max b1.x1 b2.x1) * (min b1.y2 b2.y2 - max b1.y1 b2.y1))
            = 0 from hu, div_zero]
      · rfl

/-! ### Tracker data model -/

/-- A raw detection handed to `ObjectTracker.update` (class label,
confidence and bounding box; `class_id` is never read by the tracker and
is omitted). -/
structure Detection where
  class_name : String
  confidence : ℚ
  bbox : Box
deriving DecidableEq, Repr

/-- One entry of `self.tracked_objects` (source lines 142-149). -/
structure Track where
  bbox : Box
  class_name : String
  confidence : ℚ
  first_frame : Int
  last_frame : Int
  hits : Nat
deriving DecidableEq, Repr

/-- One entry of `self.counted_objects` (source lines 166-170). -/
structure CountedInfo where
  class_name : String
  first_seen : Int
deriving DecidableEq, Repr

/-- The mutable state of an `ObjectTracker` instance (source lines 34-43). -/
structure ObjectTracker where
  next_id : Nat
  tracked_objects : List (Nat × Track)
  object_history : List (Nat × List Box)
  iou_threshold : ℚ
  max_age : Int
  min_hits : Nat
  counted_objects : List (Nat × CountedInfo)
  last_cleanup : Int
  cleanup_interval : Int
deriving Repr

/-- Result dict of `get_statistics` (source lines 185-189). -/
structure Statistics where
  total_objects : Nat
  counts_by_type : List (String × Nat)
  active_tracks : Nat
deriving DecidableEq, Repr

/-! ### cleanup_old_objects (source lines 45-63) -/

/-- `max([obj.get('last_frame', 0) for obj in ...]) if ... else 0`. -/
def currentFrameId (tracks : List (Nat × Track)) : Int :=
  match tracks.map (fun p => p.2.last_frame) with
  | [] => 0
  | x :: xs => xs.foldl max x

/-- Embedding of `ObjectTracker.cleanup_old_objects` (source lines 45-63).
`now` stands for `time.time()`. -/
def cleanup_old_objects (force : Bool) (now : Int) (s : ObjectTracker) : ObjectTracker :=
  if force = false ∧ now - s.last_cleanup < s.cleanup_interval then s
  else
    let current_frame_id := currentFrameId s.tracked_objects
    let ids_to_remove :=
      (s.tracked_objects.filter
        (fun p => s.max_age < current_frame_id - p.2.last_frame)).map Prod.fst
    { s with
      last_cleanup := now
      tracked_objects := ids_to_remove.foldl (fun l k => eraseKey k l) s.tracked_objects
      object_history := ids_to_remove.foldl (fun l k => eraseKey k l) s.object_history }

/-! ### update (source lines 88-173) -/

/-- Denormalization step of `update` (source lines 93-98): a bbox whose
coordinates are all `≤ 1.0` is scaled by the image width/height. -/
def denormalize (img_h img_w : ℚ) (det : Detection) : Detection :=
  if det.bbox.maxCoord ≤ 1 then
    { det with bbox := ⟨det.bbox.x1 * img_w, det.bbox.y1 * img_h,
                        det.bbox.x2 * img_w, det.bbox.y2 * img_h⟩ }
  else det

/-- Inner loop of the association step (source lines 106-116): scan all
tracks of the detection's class, keeping the first track whose IoU
strictly exceeds the running best (initialized to `iou_threshold`). -/
def bestMatch (tracks : List (Nat × Track)) (det : Detection) (thr : ℚ) : Option Nat :=
  (tracks.foldl
    (fun acc p =>
      if p.2.class_name ≠ det.class_name then acc
      else if acc.1 < calculate_iou p.2.bbox det.bbox then
        (calculate_iou p.2.bbox det.bbox, some p.1)
      else acc)
    (thr, (none : Option Nat))).2

/-- State threaded through the per-detection association loop
(source lines 100-134). -/
structure MatchState where
  tracks : List (Nat × Track)
  history : List (Nat × List Box)
  annotated : List (Detection × Option Nat)
deriving Repr

/-- `object_history` append on match (source lines 126-128). -/
def appendHistory (id : Nat) (b : Box) (h : List (Nat × List Box)) : List (Nat × List Box) :=
  match lookupKey id h with
  | some _ => updateEntry id (fun l => l ++ [b]) h
  | none => h ++ [(id, [b])]

/-- Body of the association loop for one detection (source lines 105-134). -/
def matchStep (frame_id : Int) (thr : ℚ) (st : MatchState) (det : Detection) : MatchState :=
  match bestMatch st.tracks det thr with
  | some best_match =>
      { tracks := updateEntry best_match
          (fun t => { t with bbox := det.bbox, confidence := det.confidence,
                             last_frame := frame_id, hits := t.hits + 1 }) st.tracks
        history := appendHistory best_match det.bbox st.history
        annotated := st.annotated ++ [(det, some best_match)] }
  | none => { st with annotated := st.annotated ++ [(det, none)] }

/-- The Track created for an unmatched detection (source lines 142-149). -/
def newTrack (det : Detection) (frame_id : Int) : Track :=
  { bbox := det.bbox, class_name := det.class_name, confidence := det.confidence,
    first_frame := frame_id, last_frame := frame_id, hits := 1 }

/-- Creation loop for unmatched detections (source lines 136-155): walks
the annotated list in order, assigning `next_id` to each unmatched entry. -/
def createNew (frame_id : Int) (next_id : Nat) (tracks : List (Nat × Track))
    (history : List (Nat × List Box)) :
    List (Detection × Option Nat) →
      Nat × List (Nat × Track) × List (Nat × List Box) × List (Detection × Nat)
  | [] => (next_id, tracks, history, [])
  | (det, some id) :: rest =>
      let (n', t', h', out) := createNew frame_id next_id tracks history rest
      (n', t', h', (det, id) :: out)
  | (det, none) :: rest =>
      let (n', t', h', out) := createNew frame_id (next_id + 1)
        (tracks ++ [(next_id, newTrack det frame_id)])
        (history ++ [(next_id, [det.bbox])]) rest
      (n', t', h', (det, next_id) :: out)

/-- Phases of `update` before the confirmation filter: denormalization,
association, creation (source lines 93-155).  Returns the new state and
the fully annotated detection list. -/
def ObjectTracker.preFilter (s : ObjectTracker) (detections : List Detection)
    (frame_id : Int) (img_h img_w : ℚ) : ObjectTracker × List (Detection × Nat) :=
  let dets := detections.map (denormalize img_h img_w)
  let ms := dets.foldl (matchStep frame_id s.iou_threshold)
    ⟨s.tracked_objects, s.object_history, []⟩
  let (n', t', h', ann) := createNew frame_id s.next_id ms.tracks ms.history ms.annotated
  ({ s with next_id := n', tracked_objects := t', object_history := h' }, ann)

/-- Condition of the confirmation filter (source line 164):
`if obj_id and self.tracked_objects[obj_id]['hits'] >= self.min_hits`.
The dict access is modelled as a lookup that fails the test when the key
is absent (Python would raise `KeyError` there; that state is reachable
only with non-monotonic frame ids, which the spec leaves undefined). -/
def keepDet (tracks : List (Nat × Track)) (min_hits : Nat) (p : Detection × Nat) : Bool :=
  p.2 ≠ 0 &&
    match lookupKey p.2 tracks with
    | some t => min_hits ≤ t.hits
    | none => false

/-- Ledger insertion for one kept detection (source lines 165-170): the
id is recorded with its class and `time.time()` only when absent. -/
def countedAdd (now : Int) (counted : List (Nat × CountedInfo)) (p : Detection × Nat) :
    List (Nat × CountedInfo) :=
  match lookupKey p.2 counted with
  | some _ => counted
  | none => counted ++ [(p.2, ⟨p.1.class_name, now⟩)]

/-- Confirmation filter and counting (source lines 160-173): keeps the
detections whose track has `hits >= min_hits`, recording each kept id in
`counted_objects` the first time it is seen.  `now` is `time.time()`. -/
def filterCount (tracks : List (Nat × Track)) (min_hits : Nat) (now : Int)
    (counted : List (Nat × CountedInfo)) :
    List (Detection × Nat) → List (Nat × CountedInfo) × List (Detection × Nat)
  | [] => (counted, [])
  | p :: rest =>
      if keepDet tracks min_hits p then
        ((filterCount tracks min_hits now (countedAdd now counted p) rest).1,
          p :: (filterCount tracks min_hits now (countedAdd now counted p) rest).2)
      else
        filterCount tracks min_hits now counted rest

/-- Embedding of `ObjectTracker.update` (source lines 88-173).
`now` stands for `time.time()` as read inside the call. -/
def ObjectTracker.update (s : ObjectTracker) (detections : List Detection)
    (frame_id : Int) (img_h img_w : ℚ) (now : Int) :
    ObjectTracker × List (Detection × Nat) :=
  let (s2, ann) := s.preFilter detections frame_id img_h img_w
  let s3 := cleanup_old_objects false now s2
  let (counted', out) := filterCount s3.tracked_objects s3.min_hits now s3.counted_objects ann
  ({ s3 with counted_objects := counted' }, out)

/-! ### get_statistics (source lines 175-189) -/

/-- Body of the count-by-class loop (source lines 179-183). -/
def bumpCount (acc : List (String × Nat)) (c : String) : List (String × Nat) :=
  match lookupKey c acc with
  | some _ => updateEntry c (fun n => n + 1) acc
  | none => acc ++ [(c, 1)]

/-- Embedding of `ObjectTracker.get_statistics` (source lines 175-189). -/
def get_statistics (s : ObjectTracker) : Statistics :=
  let counts := s.counted_objects.foldl (fun acc p => bumpCount acc p.2.class_name) []
  { total_objects := s.counted_objects.length
    counts_by_type := counts
    active_tracks := s.tracked_objects.length }

/-! ### Sequences of update calls -/

/-- Arguments of one `update` call. -/
structure CallInput where
  dets : List Detection
  frame_id : Int
  img_h : ℚ
  img_w : ℚ
  now : Int

/-- Runs a sequence of `update` calls, collecting every returned list. -/
def runSequence (s : ObjectTracker) : List CallInput → ObjectTracker × List (List (Detection × Nat))
  | [] => (s, [])
  | c :: rest =>
      let r := s.update c.dets c.frame_id c.img_h c.img_w c.now
      let (sF, outs) := runSequence r.1 rest
      (sF, r.2 :: outs)

/-! ### IoU lemmas -/

theorem interArea_comm (a b : Box) : interArea a b = interArea b a := by
  unfold interArea
  rw [min_comm a.x2 b.x2, max_comm a.x1 b.x1, min_comm a.y2 b.y2, max_comm a.y1 b.y1]

theorem interArea_self (a : Box) (ha : a.valid) : interArea a a = boxArea a := by
  unfold interArea boxArea
  rw [min_self, max_self, min_self, max_self,
    max_eq_right (by linarith [ha.1] : (0 : ℚ) ≤ a.x2 - a.x1),
    max_eq_right (by linarith [ha.2] : (0 : ℚ) ≤ a.y2 - a.y1)]

theorem boxArea_pos (a : Box) (ha : a.valid) : 0 < boxArea a :=
  mul_pos (by linarith [ha.1]) (by linarith [ha.2])

/-- **C3.** IoU correctness: `calculate_iou` computes intersection over
union — intersection area divided by `areaA + areaB - intersection area`;
it is 0 for disjoint boxes and for a zero-area union, 1 on identical
valid boxes, and exactly `25/175` on `A=(0,0,10,10)`, `B=(5,5,15,15)`. -/
theorem C3_iou_correct (a : Box) (ha : a.valid) :
    (∀ c d : Box,
        calculate_iou c d = interArea c d / (boxArea c + boxArea d - interArea c d))
    ∧ (∀ c d : Box, interArea c d = 0 → calculate_iou c d = 0)
    ∧ (∀ c d : Box, boxArea c + boxArea d - interArea c d = 0 → calculate_iou c d = 0)
    ∧ calculate_iou a a = 1
    ∧ calculate_iou ⟨0, 0, 10, 10⟩ ⟨5, 5, 15, 15⟩ = 25 / 175 := by
  refine ⟨calculate_iou_eq_formula, ?_, ?_, ?_,
    by rw [calculate_iou_eq_formula]; norm_num [interArea, boxArea, min_def, max_def]⟩
  · intro c d h
    rw [calculate_iou_eq_formula, h, zero_div]
  · intro c d h
    rw [calculate_iou_eq_formula, h, div_zero]
  · rw [calculate_iou_eq_formula, interArea_self a ha]
    have hpos := boxArea_pos a ha
    rw [show boxArea a + boxArea a - boxArea a = boxArea a by ring,
      div_self (ne_of_gt hpos)]

/-- Witness for C3 at the concrete valid box `(0,0,1,1)`. -/
theorem C3_iou_correct_witness :
    Box.valid ⟨0, 0, 1, 1⟩ ∧ calculate_iou ⟨0, 0, 1, 1⟩ ⟨0, 0, 1, 1⟩ = 1 := by
  have hv : Box.valid ⟨0, 0, 1, 1⟩ := ⟨by norm_num, by norm_num⟩
  exact ⟨hv, (C3_iou_correct ⟨0, 0, 1, 1⟩ hv).2.2.2.1⟩

/-- **C10.** IoU is symmetric: `calculate_iou a b = calculate_iou b a`
for all boxes, including degenerate ones. -/
theorem C10_iou_symm (a b : Box) : calculate_iou a b = calculate_iou b a := by
  rw [calculate_iou_eq_formula, calculate_iou_eq_formula, interArea_comm,
    add_comm (boxArea a) (boxArea b)]

/-! ### Denormalization lemmas -/

theorem maxCoord_le_one_iff (b : Box) :
    b.maxCoord ≤ 1 ↔ b.x1 ≤ 1 ∧ b.y1 ≤ 1 ∧ b.x2 ≤ 1 ∧ b.y2 ≤ 1 := by
  simp [Box.maxCoord, max_le_iff, and_assoc]

theorem matchfold_annotated_fst (frame_id : Int) (thr : ℚ) (dets : List Detection)
    (st : MatchState) :
    ((dets.foldl (matchStep frame_id thr) st).annotated).map Prod.fst
      = st.annotated.map Prod.fst ++ dets := by
  induction dets generalizing st with
  | nil => simp
  | cons d rest ih =>
    simp only [List.foldl_cons]
    rw [ih]
    unfold matchStep
    split <;> simp

theorem createNew_out_fst (frame_id : Int) (next_id : Nat) (tracks : List (Nat × Track))
    (history : List (Nat × List Box)) (l : List (Detection × Option Nat)) :
    ((createNew frame_id next_id tracks history l).2.2.2).map Prod.fst = l.map Prod.fst := by
  induction l generalizing next_id tracks history with
  | nil => simp [createNew]
  | cons p rest ih =>
    match p with
    | (det, some id) => simp [createNew, ih]
    | (det, none) => simp [createNew, ih]

/-- **C9.** Coordinate auto-detection at the start of `update`: a bbox with
some coordinate exceeding 1.0 is left unchanged; a bbox with all
coordinates at most 1.0 is denormalized (x scaled by the image width,
y by the image height); and the association/creation phases of `update`
operate on exactly the denormalized detections, in input order. -/
theorem C9_denormalize (img_h img_w : ℚ) (det : Detection) :
    (1 < det.bbox.x1 ∨ 1 < det.bbox.y1 ∨ 1 < det.bbox.x2 ∨ 1 < det.bbox.y2 →
      denormalize img_h img_w det = det)
    ∧ (det.bbox.x1 ≤ 1 ∧ det.bbox.y1 ≤ 1 ∧ det.bbox.x2 ≤ 1 ∧ det.bbox.y2 ≤ 1 →
      denormalize img_h img_w det =
        { det with bbox := ⟨det.bbox.x1 * img_w, det.bbox.y1 * img_h,
                            det.bbox.x2 * img_w, det.bbox.y2 * img_h⟩ })
    ∧ ∀ (s : ObjectTracker) (dets : List Detection) (frame_id : Int),
        ((s.preFilter dets frame_id img_h img_w).2).map Prod.fst
          = dets.map (denormalize img_h img_w) := by
  refine ⟨?_, ?_, ?_⟩
  · intro h
    have hgt : ¬ det.bbox.maxCoord ≤ 1 := by
      rw [maxCoord_le_one_iff]
      intro hle
      rcases h with h | h | h | h
      · exact absurd hle.1 (not_le.mpr h)
      · exact absurd hle.2.1 (not_le.mpr h)
      · exact absurd hle.2.2.1 (not_le.mpr h)
      · exact absurd hle.2.2.2 (not_le.mpr h)
    simp [denormalize, hgt]
  · intro h
    have hle : det.bbox.maxCoord ≤ 1 := (maxCoord_le_one_iff det.bbox).mpr h
    simp [denormalize, hle]
  · intro s dets frame_id
    unfold ObjectTracker.preFilter
    simp only
    rw [createNew_out_fst, matchfold_annotated_fst]
    simp

attribute [local semireducible] Rat.add Rat.mul Rat.sub Rat.inv

/-! ### C2: per-frame match exclusivity -/

theorem matchfold_hits (frame_id : Int) (thr : ℚ) (dets : List Detection)
    (st : MatchState) (id : Nat) (t0 : Track)
    (h : lookupKey id st.tracks = some t0) :
    ∃ t1, lookupKey id ((dets.foldl (matchStep frame_id thr) st).tracks) = some t1
      ∧ t1.hits + (st.annotated.countP fun p => decide (p.2 = some id))
        = t0.hits + (((dets.foldl (matchStep frame_id thr) st).annotated).countP
            fun p => decide (p.2 = some id)) := by
  induction dets generalizing st t0 with
  | nil => exact ⟨t0, h, rfl⟩
  | cons d rest ih =>
    simp only [List.foldl_cons]
    rcases hbm : bestMatch st.tracks d thr with _ | j
    · have hst : matchStep frame_id thr st d
          = { st with annotated := st.annotated ++ [(d, none)] } := by
        unfold matchStep
        rw [hbm]
      rw [hst]
      obtain ⟨t1, h1, h2⟩ := ih { st with annotated := st.annotated ++ [(d, none)] } t0 h
      refine ⟨t1, h1, ?_⟩
      simp only [List.countP_append] at h2
      simpa using h2
    · have hst : matchStep frame_id thr st d
          = MatchState.mk
              (updateEntry j
                (fun t => { t with bbox := d.bbox, confidence := d.confidence,
                                   last_frame := frame_id, hits := t.hits + 1 }) st.tracks)
              (appendHistory j d.bbox st.history)
              (st.annotated ++ [(d, some j)]) := by
        unfold matchStep
        rw [hbm]
      rw [hst]
      by_cases hj : j = id
      · subst hj
        have hlk : lookupKey j (updateEntry j
            (fun t => { t with bbox := d.bbox, confidence := d.confidence,
                               last_frame := frame_id, hits := t.hits + 1 }) st.tracks)
            = some { t0 with bbox := d.bbox, confidence := d.confidence,
                             last_frame := frame_id, hits := t0.hits + 1 } := by
          rw [lookupKey_updateEntry_self, h]
          rfl
        obtain ⟨t1, h1, h2⟩ := ih ⟨updateEntry j
            (fun t => { t with bbox := d.bbox, confidence := d.confidence,
                               last_frame := frame_id, hits := t.hits + 1 }) st.tracks,
          appendHistory j d.bbox st.history, st.annotated ++ [(d, some j)]⟩ _ hlk
        refine ⟨t1, h1, ?_⟩
        rw [List.countP_append] at h2
        norm_num [List.countP_cons] at h2
        omega
      · have hlk : lookupKey id (updateEntry j
            (fun t => { t with bbox := d.bbox, confidence := d.confidence,
                               last_frame := frame_id, hits := t.hits + 1 }) st.tracks)
            = some t0 := by
          rw [lookupKey_updateEntry_other _ _ (fun hh => hj hh.symm), h]
        obtain ⟨t1, h1, h2⟩ := ih ⟨updateEntry j
            (fun t => { t with bbox := d.bbox, confidence := d.confidence,
                               last_frame := frame_id, hits := t.hits + 1 }) st.tracks,
          appendHistory j d.bbox st.history, st.annotated ++ [(d, some j)]⟩ _ hlk
        refine ⟨t1, h1, ?_⟩
        rw [List.countP_append] at h2
        norm_num [List.countP_cons, hj] at h2
        omega

/-- **C2, counterexample.**  With one live "car" track (id 1, one hit) and
two identical "car" detections in a single `update` call, both detections
are matched to track 1: the returned tracking ids are `[1, 1]` (not
pairwise distinct) and the track's hit count rises from 1 to 3 (by two,
not by one) in that single call. -/
theorem C2_counterexample :
    (((ObjectTracker.update
        { next_id := 2
          tracked_objects := [(1, ⟨⟨0, 0, 10, 10⟩, "car", 9/10, 1, 1, 1⟩)]
          object_history := [(1, [⟨0, 0, 10, 10⟩])]
          iou_threshold := 3/10, max_age := 30, min_hits := 3
          counted_objects := [], last_cleanup := 0, cleanup_interval := 60 }
        [⟨"car", 9/10, ⟨0, 0, 10, 10⟩⟩, ⟨"car", 9/10, ⟨0, 0, 10, 10⟩⟩]
        2 100 100 5).2.map Prod.snd) = [1, 1])
    ∧ ¬ List.Pairwise (fun a b => a ≠ b)
        (((ObjectTracker.update
            { next_id := 2
              tracked_objects := [(1, ⟨⟨0, 0, 10, 10⟩, "car", 9/10, 1, 1, 1⟩)]
              object_history := [(1, [⟨0, 0, 10, 10⟩])]
              iou_threshold := 3/10, max_age := 30, min_hits := 3
              counted_objects := [], last_cleanup := 0, cleanup_interval := 60 }
            [⟨"car", 9/10, ⟨0, 0, 10, 10⟩⟩, ⟨"car", 9/10, ⟨0, 0, 10, 10⟩⟩]
            2 100 100 5).2.map Prod.snd))
    ∧ (lookupKey 1 (ObjectTracker.update
        { next_id := 2
          tracked_objects := [(1, ⟨⟨0, 0, 10, 10⟩, "car", 9/10, 1, 1, 1⟩)]
          object_history := [(1, [⟨0, 0, 10, 10⟩])]
          iou_threshold := 3/10, max_age := 30, min_hits := 3
          counted_objects := [], last_cleanup := 0, cleanup_interval := 60 }
        [⟨"car", 9/10, ⟨0, 0, 10, 10⟩⟩, ⟨"car", 9/10, ⟨0, 0, 10, 10⟩⟩]
        2 100 100 5).1.tracked_objects).map Track.hits = some 3 :=
  ⟨by decide, by decide, by decide⟩

/-- **C2, amended.**  In a single `update` call a detection is matched to
at most one track, but a track may be matched by several detections: its
hit count increases by exactly the number of detections annotated with
its id by the association loop (which may exceed one), and all of those
detections share that id. -/
theorem C2_amended_track_hits (tracks : List (Nat × Track)) (history : List (Nat × List Box))
    (dets : List Detection) (frame_id : Int) (thr : ℚ) (id : Nat) (t0 : Track)
    (h : lookupKey id tracks = some t0) :
    ∃ t1,
      lookupKey id ((dets.foldl (matchStep frame_id thr) ⟨tracks, history, []⟩).tracks) = some t1
      ∧ t1.hits = t0.hits
          + (((dets.foldl (matchStep frame_id thr) ⟨tracks, history, []⟩).annotated).countP
              fun p => decide (p.2 = some id)) := by
  obtain ⟨t1, h1, h2⟩ := matchfold_hits frame_id thr dets ⟨tracks, history, []⟩ id t0 h
  refine ⟨t1, h1, ?_⟩
  simpa using h2

/-- Witness for the amended C2: one "car" track with one hit, two identical
"car" detections; the association loop matches both to track 1, whose hit
count therefore grows by the number (two) of detections annotated 1. -/
theorem C2_amended_track_hits_witness :
    lookupKey 1 [(1, (⟨⟨0, 0, 10, 10⟩, "car", 9/10, 1, 1, 1⟩ : Track))]
      = some ⟨⟨0, 0, 10, 10⟩, "car", 9/10, 1, 1, 1⟩
    ∧ ∃ t1,
      lookupKey 1 (([⟨"car", 9/10, ⟨0, 0, 10, 10⟩⟩,
          (⟨"car", 9/10, ⟨0, 0, 10, 10⟩⟩ : Detection)].foldl (matchStep 2 (3/10))
        ⟨[(1, ⟨⟨0, 0, 10, 10⟩, "car", 9/10, 1, 1, 1⟩)], [(1, [⟨0, 0, 10, 10⟩])], []⟩).tracks)
        = some t1
      ∧ t1.hits = (⟨⟨0, 0, 10, 10⟩, "car", 9/10, 1, 1, 1⟩ : Track).hits
          + ((([⟨"car", 9/10, ⟨0, 0, 10, 10⟩⟩,
              (⟨"car", 9/10, ⟨0, 0, 10, 10⟩⟩ : Detection)].foldl (matchStep 2 (3/10))
            ⟨[(1, ⟨⟨0, 0, 10, 10⟩, "car", 9/10, 1, 1, 1⟩)],
             [(1, [⟨0, 0, 10, 10⟩])], []⟩).annotated).countP
              fun p => decide (p.2 = some 1)) :=
  ⟨rfl, C2_amended_track_hits
    [(1, ⟨⟨0, 0, 10, 10⟩, "car", 9/10, 1, 1, 1⟩)] [(1, [⟨0, 0, 10, 10⟩])]
    [⟨"car", 9/10, ⟨0, 0, 10, 10⟩⟩, ⟨"car", 9/10, ⟨0, 0, 10, 10⟩⟩]
    2 (3/10) 1 ⟨⟨0, 0, 10, 10⟩, "car", 9/10, 1, 1, 1⟩ rfl⟩

/-! ### C5: eviction boundary of the cleanup sweep -/

theorem foldl_eraseKey_lookup {α : Type} (ids : List Nat) (l : List (Nat × α)) (k : Nat) :
    lookupKey k (ids.foldl (fun acc i => eraseKey i acc) l)
      = if k ∈ ids then none else lookupKey k l := by
  induction ids generalizing l with
  | nil => simp
  | cons i rest ih =>
    simp only [List.foldl_cons]
    rw [ih]
    by_cases hk : k ∈ rest
    · simp [hk]
    · by_cases hki : k = i
      · simp [hk, hki, lookupKey_eraseKey]
      · simp [hk, hki, lookupKey_eraseKey]

/-- **C5.**  When a cleanup sweep actually runs (forced, or the cleanup
interval has elapsed), it deletes exactly the tracks whose
`current_frame - last_frame` exceeds `max_age`, where `current_frame` is
the maximum `last_frame` over live tracks (0 if none): a track survives
the sweep iff it was present and `current_frame - last_frame ≤ max_age`;
in particular a gap equal to `max_age` survives. -/
theorem C5_eviction_boundary (s : ObjectTracker) (force : Bool) (now : Int)
    (id : Nat) (t : Track)
    (hnd : (s.tracked_objects.map Prod.fst).Nodup)
    (hrun : force = true ∨ s.cleanup_interval ≤ now - s.last_cleanup) :
    lookupKey id (cleanup_old_objects force now s).tracked_objects = some t
      ↔ lookupKey id s.tracked_objects = some t
        ∧ currentFrameId s.tracked_objects - t.last_frame ≤ s.max_age := by
  have hgate : ¬ (force = false ∧ now - s.last_cleanup < s.cleanup_interval) := by
    rcases hrun with h | h
    · simp [h]
    · exact fun hc => absurd hc.2 (not_lt.mpr h)
  unfold cleanup_old_objects
  rw [if_neg hgate]
  simp only
  rw [foldl_eraseKey_lookup]
  constructor
  · intro h
    split at h
    · exact absurd h (by simp)
    · rename_i hmem
      refine ⟨h, ?_⟩
      by_contra hage
      push_neg at hage
      apply hmem
      simp only [List.mem_map, List.mem_filter]
      exact ⟨(id, t), ⟨lookupKey_mem h, by simpa using hage⟩, rfl⟩
  · rintro ⟨h, hage⟩
    have hmem : id ∉ ((s.tracked_objects.filter
        (fun p => decide (s.max_age < currentFrameId s.tracked_objects - p.2.last_frame))).map
          Prod.fst) := by
      simp only [List.mem_map, List.mem_filter]
      rintro ⟨⟨k, t'⟩, ⟨hmem', hpred⟩, hfst⟩
      simp only at hfst
      subst hfst
      have : t' = t := by
        have := mem_lookupKey hnd hmem'
        rw [h] at this
        exact (Option.some.injEq _ _ ▸ this).symm
      subst this
      simp only [decide_eq_true_eq] at hpred
      exact absurd hpred (not_lt.mpr hage)
    rw [if_neg hmem]
    exact h

/-- Witness for C5: three tracks with `last_frame` 100, 70, 69 and
`max_age = 30` (current frame 100): the gap-30 track survives the forced
sweep, the gap-31 track is deleted. -/
theorem C5_eviction_boundary_witness :
    ((([(1, (⟨⟨0, 0, 1, 1⟩, "car", 1, 100, 100, 5⟩ : Track)),
        (2, ⟨⟨0, 0, 1, 1⟩, "car", 1, 70, 70, 5⟩),
        (3, ⟨⟨0, 0, 1, 1⟩, "car", 1, 69, 69, 5⟩)] : List (Nat × Track)).map Prod.fst).Nodup)
    ∧ lookupKey 2 (cleanup_old_objects true 1000
        { next_id := 4
          tracked_objects := [(1, ⟨⟨0, 0, 1, 1⟩, "car", 1, 100, 100, 5⟩),
            (2, ⟨⟨0, 0, 1, 1⟩, "car", 1, 70, 70, 5⟩),
            (3, ⟨⟨0, 0, 1, 1⟩, "car", 1, 69, 69, 5⟩)]
          object_history := [], iou_threshold := 3/10, max_age := 30, min_hits := 3
          counted_objects := [], last_cleanup := 0,
          cleanup_interval := 60 }).tracked_objects
      = some ⟨⟨0, 0, 1, 1⟩, "car", 1, 70, 70, 5⟩
    ∧ lookupKey 3 (cleanup_old_objects true 1000
        { next_id := 4
          tracked_objects := [(1, ⟨⟨0, 0, 1, 1⟩, "car", 1, 100, 100, 5⟩),
            (2, ⟨⟨0, 0, 1, 1⟩, "car", 1, 70, 70, 5⟩),
            (3, ⟨⟨0, 0, 1, 1⟩, "car", 1, 69, 69, 5⟩)]
          object_history := [], iou_threshold := 3/10, max_age := 30, min_hits := 3
          counted_objects := [], last_cleanup := 0,
          cleanup_interval := 60 }).tracked_objects = none :=
  ⟨by decide,
   (C5_eviction_boundary
      { next_id := 4
        tracked_objects := [(1, ⟨⟨0, 0, 1, 1⟩, "car", 1, 100, 100, 5⟩),
          (2, ⟨⟨0, 0, 1, 1⟩, "car", 1, 70, 70, 5⟩),
          (3, ⟨⟨0, 0, 1, 1⟩, "car", 1, 69, 69, 5⟩)]
        object_history := [], iou_threshold := 3/10, max_age := 30, min_hits := 3
        counted_objects := [], last_cleanup := 0, cleanup_interval := 60 }
      true 1000 2 ⟨⟨0, 0, 1, 1⟩, "car", 1, 70, 70, 5⟩ (by decide) (Or.inl rfl)).mpr
    ⟨by decide, by decide⟩,
   by decide⟩

/-! ### Decomposition of update into its phases -/

theorem preFilter_state (s : ObjectTracker) (dets : List Detection) (frame_id : Int)
    (img_h img_w : ℚ) :
    (s.preFilter dets frame_id img_h img_w).1.counted_objects = s.counted_objects
    ∧ (s.preFilter dets frame_id img_h img_w).1.min_hits = s.min_hits
    ∧ (s.preFilter dets frame_id img_h img_w).1.iou_threshold = s.iou_threshold
    ∧ (s.preFilter dets frame_id img_h img_w).1.max_age = s.max_age
    ∧ (s.preFilter dets frame_id img_h img_w).1.last_cleanup = s.last_cleanup
    ∧ (s.preFilter dets frame_id img_h img_w).1.cleanup_interval = s.cleanup_interval := by
  exact ⟨rfl, rfl, rfl, rfl, rfl, rfl⟩

theorem cleanup_state (force : Bool) (now : Int) (s : ObjectTracker) :
    (cleanup_old_objects force now s).counted_objects = s.counted_objects
    ∧ (cleanup_old_objects force now s).min_hits = s.min_hits
    ∧ (cleanup_old_objects force now s).next_id = s.next_id := by
  unfold cleanup_old_objects
  split <;> exact ⟨rfl, rfl, rfl⟩

theorem update_eq (s : ObjectTracker) (dets : List Detection) (frame_id : Int)
    (img_h img_w : ℚ) (now : Int) :
    s.update dets frame_id img_h img_w now
      = ({ cleanup_old_objects false now (s.preFilter dets frame_id img_h img_w).1 with
            counted_objects :=
              (filterCount
                (cleanup_old_objects false now
                  (s.preFilter dets frame_id img_h img_w).1).tracked_objects
                (cleanup_old_objects false now
                  (s.preFilter dets frame_id img_h img_w).1).min_hits now
                (cleanup_old_objects false now
                  (s.preFilter dets frame_id img_h img_w).1).counted_objects
                (s.preFilter dets frame_id img_h img_w).2).1 },
         (filterCount
            (cleanup_old_objects false now
              (s.preFilter dets frame_id img_h img_w).1).tracked_objects
            (cleanup_old_objects false now
              (s.preFilter dets frame_id img_h img_w).1).min_hits now
            (cleanup_old_objects false now
              (s.preFilter dets frame_id img_h img_w).1).counted_objects
            (s.preFilter dets frame_id img_h img_w).2).2) := rfl

/-! ### Ledger lemmas about filterCount -/

theorem countedAdd_some {now : Int} {counted : List (Nat × CountedInfo)}
    {p : Detection × Nat} {v : CountedInfo} (hl : lookupKey p.2 counted = some v) :
    countedAdd now counted p = counted := by
  unfold countedAdd
  rw [hl]

theorem countedAdd_none {now : Int} {counted : List (Nat × CountedInfo)}
    {p : Detection × Nat} (hl : lookupKey p.2 counted = none) :
    countedAdd now counted p = counted ++ [(p.2, ⟨p.1.class_name, now⟩)] := by
  unfold countedAdd
  rw [hl]

theorem filterCount_counted_ext (tracks : List (Nat × Track)) (mh : Nat) (now : Int)
    (l : List (Detection × Nat)) :
    ∀ counted, ∃ ext, (filterCount tracks mh now counted l).1 = counted ++ ext := by
  induction l with
  | nil => exact fun c => ⟨[], by simp [filterCount]⟩
  | cons p rest ih =>
    intro c
    cases hk : keepDet tracks mh p with
    | false =>
      obtain ⟨ext, hext⟩ := ih c
      exact ⟨ext, by simp [filterCount, hk, hext]⟩
    | true =>
      obtain ⟨ext, hext⟩ := ih (countedAdd now c p)
      cases hl : lookupKey p.2 c with
      | some v =>
        refine ⟨ext, ?_⟩
        simp only [filterCount, hk, if_true]
        rw [hext, countedAdd_some hl]
      | none =>
        refine ⟨(p.2, ⟨p.1.class_name, now⟩) :: ext, ?_⟩
        simp only [filterCount, hk, if_true]
        rw [hext, countedAdd_none hl, List.append_assoc]
        rfl

theorem filterCount_counted_lookup (tracks : List (Nat × Track)) (mh : Nat) (now : Int)
    (l : List (Detection × Nat)) (counted : List (Nat × CountedInfo)) (id : Nat)
    (v : CountedInfo) (h : lookupKey id counted = some v) :
    lookupKey id (filterCount tracks mh now counted l).1 = some v := by
  obtain ⟨ext, hext⟩ := filterCount_counted_ext tracks mh now l counted
  rw [hext]
  exact lookupKey_append_left _ _ _ _ h

theorem filterCount_counted_nodup (tracks : List (Nat × Track)) (mh : Nat) (now : Int)
    (l : List (Detection × Nat)) :
    ∀ counted, (counted.map Prod.fst).Nodup →
      (((filterCount tracks mh now counted l).1.map Prod.fst).Nodup) := by
  induction l with
  | nil =>
    intro c h
    simpa [filterCount] using h
  | cons p rest ih =>
    intro c h
    cases hk : keepDet tracks mh p with
    | false =>
      simp only [filterCount, hk, if_false]
      exact ih c h
    | true =>
      simp only [filterCount, hk, if_true]
      refine ih (countedAdd now c p) ?_
      cases hl : lookupKey p.2 c with
      | some v => rwa [countedAdd_some hl]
      | none =>
        rw [countedAdd_none hl]
        simp only [List.map_append, List.map_cons, List.map_nil]
        rw [List.nodup_append]
        refine ⟨h, List.nodup_singleton _, ?_⟩
        intro a ha hb
        simp only [List.mem_singleton] at hb
        subst hb
        exact ((lookupKey_none_iff _ _).mp hl) ha

theorem filterCount_counted_keys (tracks : List (Nat × Track)) (mh : Nat) (now : Int)
    (l : List (Detection × Nat)) :
    ∀ counted k, k ∈ ((filterCount tracks mh now counted l).1.map Prod.fst) →
      k ∈ counted.map Prod.fst ∨ k ∈ ((filterCount tracks mh now counted l).2.map Prod.snd) := by
  induction l with
  | nil =>
    intro c k h
    simp only [filterCount] at h
    exact Or.inl h
  | cons p rest ih =>
    intro c k h
    cases hk : keepDet tracks mh p with
    | false =>
      simp only [filterCount, hk, if_false] at h ⊢
      exact ih c k h
    | true =>
      simp only [filterCount, hk, if_true] at h ⊢
      rcases ih (countedAdd now c p) k h with h1 | h2
      · cases hl : lookupKey p.2 c with
        | some v =>
          rw [countedAdd_some hl] at h1
          exact Or.inl h1
        | none =>
          rw [countedAdd_none hl] at h1
          simp only [List.map_append, List.map_cons, List.map_nil, List.mem_append,
            List.mem_singleton] at h1
          rcases h1 with h1 | h1
          · exact Or.inl h1
          · right
            simp only [List.map_cons, List.mem_cons]
            exact Or.inl h1
      · right
        simp only [List.map_cons, List.mem_cons]
        exact Or.inr h2

/-- **C1.**  The counted ledger is append-only and duplicate-free: an
`update` call preserves every existing ledger entry unchanged (so an id,
once recorded, is never removed or re-recorded), keeps the ledger keys
duplicate-free, and never shrinks the ledger (so `total_objects` never
decreases and grows by at most one per distinct track id); every key
present after the call was either already present or is the tracking id
of a detection surviving this call's confirmation filter; and a cleanup
sweep never touches the ledger, even when it evicts tracks. -/
theorem C1_counted_ledger (s : ObjectTracker) (dets : List Detection) (frame_id : Int)
    (img_h img_w : ℚ) (now now2 : Int) (force : Bool)
    (hnd : (s.counted_objects.map Prod.fst).Nodup) :
    (∀ id v, lookupKey id s.counted_objects = some v →
        lookupKey id (s.update dets frame_id img_h img_w now).1.counted_objects = some v)
    ∧ (((s.update dets frame_id img_h img_w now).1.counted_objects.map Prod.fst).Nodup)
    ∧ s.counted_objects.length
        ≤ (s.update dets frame_id img_h img_w now).1.counted_objects.length
    ∧ (∀ id, id ∈ ((s.update dets frame_id img_h img_w now).1.counted_objects.map Prod.fst) →
        id ∈ s.counted_objects.map Prod.fst
        ∨ id ∈ ((s.update dets frame_id img_h img_w now).2.map Prod.snd))
    ∧ (cleanup_old_objects force now2 s).counted_objects = s.counted_objects := by
  have h1 : (cleanup_old_objects false now
      (s.preFilter dets frame_id img_h img_w).1).counted_objects = s.counted_objects := by
    rw [(cleanup_state _ _ _).1]
    exact (preFilter_state _ _ _ _ _).1
  simp only [update_eq]
  rw [h1]
  refine ⟨?_, ?_, ?_, ?_, (cleanup_state _ _ _).1⟩
  · intro id v h
    exact filterCount_counted_lookup _ _ _ _ _ _ _ h
  · exact filterCount_counted_nodup _ _ _ _ _ hnd
  · obtain ⟨ext, hext⟩ := filterCount_counted_ext
      (cleanup_old_objects false now (s.preFilter dets frame_id img_h img_w).1).tracked_objects
      (cleanup_old_objects false now (s.preFilter dets frame_id img_h img_w).1).min_hits now
      (s.preFilter dets frame_id img_h img_w).2 s.counted_objects
    rw [hext, List.length_append]
    exact Nat.le_add_right _ _
  · exact filterCount_counted_keys _ _ _ _ _

/-- Witness for C1 at a concrete tracker (empty ledger, one live track,
two identical detections). -/
theorem C1_counted_ledger_witness :
    ((([] : List (Nat × CountedInfo)).map Prod.fst).Nodup)
    ∧ ([] : List (Nat × CountedInfo)).length
        ≤ (ObjectTracker.update
            { next_id := 2
              tracked_objects := [(1, ⟨⟨0, 0, 10, 10⟩, "car", 9/10, 1, 1, 1⟩)]
              object_history := [(1, [⟨0, 0, 10, 10⟩])]
              iou_threshold := 3/10, max_age := 30, min_hits := 3
              counted_objects := [], last_cleanup := 0, cleanup_interval := 60 }
            [⟨"car", 9/10, ⟨0, 0, 10, 10⟩⟩, ⟨"car", 9/10, ⟨0, 0, 10, 10⟩⟩]
            2 100 100 5).1.counted_objects.length :=
  ⟨by simp,
   (C1_counted_ledger
      { next_id := 2
        tracked_objects := [(1, ⟨⟨0, 0, 10, 10⟩, "car", 9/10, 1, 1, 1⟩)]
        object_history := [(1, [⟨0, 0, 10, 10⟩])]
        iou_threshold := 3/10, max_age := 30, min_hits := 3
        counted_objects := [], last_cleanup := 0, cleanup_interval := 60 }
      [⟨"car", 9/10, ⟨0, 0, 10, 10⟩⟩, ⟨"car", 9/10, ⟨0, 0, 10, 10⟩⟩]
      2 100 100 5 0 false (by simp)).2.2.1⟩

/-! ### C8: statistics -/

/-- Count recorded for a class in a counts dict (0 when absent). -/
def lookupCount (c : String) (l : List (String × Nat)) : Nat := (lookupKey c l).getD 0

theorem bumpCount_lookup_same (acc : List (String × Nat)) (c : String) :
    lookupCount c (bumpCount acc c) = lookupCount c acc + 1 := by
  unfold bumpCount
  cases hl : lookupKey c acc with
  | some n =>
    show lookupCount c (updateEntry c (fun n => n + 1) acc) = lookupCount c acc + 1
    unfold lookupCount
    rw [lookupKey_updateEntry_self, hl]
    rfl
  | none =>
    show lookupCount c (acc ++ [(c, 1)]) = lookupCount c acc + 1
    unfold lookupCount
    rw [lookupKey_append_none _ _ _ hl, hl]
    simp [lookupKey]

theorem bumpCount_lookup_other (acc : List (String × Nat)) (c c' : String) (h : c' ≠ c) :
    lookupCount c' (bumpCount acc c) = lookupCount c' acc := by
  unfold bumpCount
  cases hl : lookupKey c acc with
  | some n =>
    show lookupCount c' (updateEntry c (fun n => n + 1) acc) = lookupCount c' acc
    unfold lookupCount
    rw [lookupKey_updateEntry_other _ _ h]
  | none =>
    show lookupCount c' (acc ++ [(c, 1)]) = lookupCount c' acc
    unfold lookupCount
    cases hl' : lookupKey c' acc with
    | some m => rw [lookupKey_append_left _ _ _ _ hl']
    | none =>
      rw [lookupKey_append_none _ _ _ hl']
      have hcc : ¬ (c = c') := fun hh => h hh.symm
      simp [lookupKey, hcc]

theorem statsfold_lookup (l : List (Nat × CountedInfo)) :
    ∀ (acc : List (String × Nat)) (c : String),
      lookupCount c (l.foldl (fun acc p => bumpCount acc p.2.class_name) acc)
        = lookupCount c acc + (l.countP fun p => decide (p.2.class_name = c)) := by
  induction l with
  | nil => simp
  | cons p rest ih =>
    intro acc c
    simp only [List.foldl_cons, List.countP_cons]
    rw [ih]
    by_cases hc : p.2.class_name = c
    · rw [hc, bumpCount_lookup_same]
      simp [hc]
      omega
    · rw [bumpCount_lookup_other _ _ _ (fun hh => hc hh.symm)]
      simp [hc]

/-- **C8.**  `get_statistics` is a pure read of the tracker state:
`total_objects` is the ledger size, `active_tracks` the number of live
tracks, and `counts_by_type` records, for every class, exactly the number
of ledger entries with that recorded class; being a pure function of the
state, two calls with no intervening update give identical results. -/
theorem C8_statistics (s : ObjectTracker) :
    (get_statistics s).total_objects = s.counted_objects.length
    ∧ (get_statistics s).active_tracks = s.tracked_objects.length
    ∧ (∀ c : String, lookupCount c (get_statistics s).counts_by_type
        = (s.counted_objects.filter (fun p => decide (p.2.class_name = c))).length)
    ∧ get_statistics s = get_statistics s := by
  refine ⟨rfl, rfl, ?_, rfl⟩
  intro c
  unfold get_statistics
  simp only
  rw [statsfold_lookup]
  rw [List.countP_eq_length_filter]
  simp [lookupCount, lookupKey]

/-! ### C7: strict matching threshold -/

theorem bestMatch_fold_mem (det : Detection) (thr : ℚ) (l : List (Nat × Track)) :
    ∀ (acc : ℚ × Option Nat) (id : Nat),
      thr ≤ acc.1 →
      ((l.foldl
        (fun acc p =>
          if p.2.class_name ≠ det.class_name then acc
          else if acc.1 < calculate_iou p.2.bbox det.bbox then
            (calculate_iou p.2.bbox det.bbox, some p.1)
          else acc) acc).2 = some id) →
      acc.2 = some id
      ∨ ∃ t, (id, t) ∈ l ∧ t.class_name = det.class_name
          ∧ thr < calculate_iou t.bbox det.bbox := by
  induction l with
  | nil =>
    intro acc id hacc hres
    exact Or.inl hres
  | cons p rest ih =>
    intro acc id hacc hres
    simp only [List.foldl_cons] at hres
    by_cases hcl : p.2.class_name ≠ det.class_name
    · rw [if_pos hcl] at hres
      rcases ih acc id hacc hres with h | ⟨t, hmem, hc, hiou⟩
      · exact Or.inl h
      · exact Or.inr ⟨t, List.mem_cons_of_mem _ hmem, hc, hiou⟩
    · rw [if_neg hcl] at hres
      push_neg at hcl
      by_cases himp : acc.1 < calculate_iou p.2.bbox det.bbox
      · rw [if_pos himp] at hres
        rcases ih (calculate_iou p.2.bbox det.bbox, some p.1) id
            (le_of_lt (lt_of_le_of_lt hacc himp)) hres with h | ⟨t, hmem, hc, hiou⟩
        · simp only [Option.some.injEq] at h
          subst h
          exact Or.inr ⟨p.2, by simp, hcl, lt_of_le_of_lt hacc himp⟩
        · exact Or.inr ⟨t, List.mem_cons_of_mem _ hmem, hc, hiou⟩
      · rw [if_neg himp] at hres
        rcases ih acc id hacc hres with h | ⟨t, hmem, hc, hiou⟩
        · exact Or.inl h
        · exact Or.inr ⟨t, List.mem_cons_of_mem _ hmem, hc, hiou⟩

theorem bestMatch_fold_none (det : Detection) (thr : ℚ) (l : List (Nat × Track)) :
    ∀ (o : Option Nat),
      (∀ p ∈ l, p.2.class_name = det.class_name →
        calculate_iou p.2.bbox det.bbox ≤ thr) →
      (l.foldl
        (fun acc p =>
          if p.2.class_name ≠ det.class_name then acc
          else if acc.1 < calculate_iou p.2.bbox det.bbox then
            (calculate_iou p.2.bbox det.bbox, some p.1)
          else acc) (thr, o)) = (thr, o) := by
  induction l with
  | nil => intro o _; rfl
  | cons p rest ih =>
    intro o hle
    simp only [List.foldl_cons]
    by_cases hcl : p.2.class_name ≠ det.class_name
    · rw [if_pos hcl]
      exact ih o (fun q hq => hle q (List.mem_cons_of_mem _ hq))
    · rw [if_neg hcl]
      push_neg at hcl
      have hiou : calculate_iou p.2.bbox det.bbox ≤ thr := hle p (by simp) hcl
      rw [if_neg (not_lt.mpr hiou)]
      exact ih o (fun q hq => hle q (List.mem_cons_of_mem _ hq))

/-- **C7.**  The match threshold is strict: a detection is matched to a
track only when their IoU strictly exceeds `iou_threshold` (and the track
has the detection's class); when every same-class track has IoU at most
the threshold — in particular exactly equal to it — no track matches and
`update` creates a fresh track with `hit_count = 1` and
`first_frame = last_frame = frame_id` under the new id `next_id`. -/
theorem C7_strict_threshold :
    (∀ (tracks : List (Nat × Track)) (det : Detection) (thr : ℚ) (id : Nat),
      bestMatch tracks det thr = some id →
      ∃ t, (id, t) ∈ tracks ∧ t.class_name = det.class_name
        ∧ thr < calculate_iou t.bbox det.bbox)
    ∧ (∀ (tracks : List (Nat × Track)) (det : Detection) (thr : ℚ),
      (∀ p ∈ tracks, p.2.class_name = det.class_name →
        calculate_iou p.2.bbox det.bbox ≤ thr) →
      bestMatch tracks det thr = none)
    ∧ (∀ (det : Detection) (frame_id : Int),
        (newTrack det frame_id).hits = 1
        ∧ (newTrack det frame_id).first_frame = frame_id
        ∧ (newTrack det frame_id).last_frame = frame_id)
    ∧ (∀ (s : ObjectTracker) (d : Detection) (frame_id : Int) (img_h img_w : ℚ),
        (∀ p ∈ s.tracked_objects,
          p.2.class_name = (denormalize img_h img_w d).class_name →
          calculate_iou p.2.bbox (denormalize img_h img_w d).bbox ≤ s.iou_threshold) →
        s.preFilter [d] frame_id img_h img_w
          = ({ s with
                next_id := s.next_id + 1
                tracked_objects := s.tracked_objects
                  ++ [(s.next_id, newTrack (denormalize img_h img_w d) frame_id)]
                object_history := s.object_history
                  ++ [(s.next_id, [(denormalize img_h img_w d).bbox])] },
             [(denormalize img_h img_w d, s.next_id)])) := by
  refine ⟨?_, ?_, fun det frame_id => ⟨rfl, rfl, rfl⟩, ?_⟩
  · intro tracks det thr id hbm
    unfold bestMatch at hbm
    rcases bestMatch_fold_mem det thr tracks (thr, none) id (le_refl thr) hbm with h | h
    · exact absurd h (by simp)
    · exact h
  · intro tracks det thr hle
    unfold bestMatch
    rw [bestMatch_fold_none det thr tracks none hle]
  · intro s d frame_id img_h img_w hle
    have hbm : bestMatch s.tracked_objects (denormalize img_h img_w d) s.iou_threshold
        = none := by
      unfold bestMatch
      rw [bestMatch_fold_none _ _ _ none hle]
    unfold ObjectTracker.preFilter
    simp only [List.map_cons, List.map_nil, List.foldl_cons, List.foldl_nil]
    unfold matchStep
    simp only
    rw [hbm]
    simp only [createNew, List.nil_append]

/-- Witness for C7: a track whose IoU with the detection is exactly the
threshold (`25/175`) does not match; the single-detection `update` phase
creates track 5 instead. -/
theorem C7_strict_threshold_witness :
    bestMatch [(4, (⟨⟨0, 0, 10, 10⟩, "car", 1, 1, 1, 1⟩ : Track))]
      ⟨"car", 1, ⟨5, 5, 15, 15⟩⟩ (25/175) = none
    ∧ ObjectTracker.preFilter
        { next_id := 5
          tracked_objects := [(4, ⟨⟨0, 0, 10, 10⟩, "car", 1, 1, 1, 1⟩)]
          object_history := [(4, [⟨0, 0, 10, 10⟩])]
          iou_threshold := 25/175, max_age := 30, min_hits := 3
          counted_objects := [], last_cleanup := 0, cleanup_interval := 60 }
        [⟨"car", 1, ⟨5, 5, 15, 15⟩⟩] 2 100 100
      = ({ next_id := 6
           tracked_objects := [(4, ⟨⟨0, 0, 10, 10⟩, "car", 1, 1, 1, 1⟩),
             (5, newTrack (denormalize 100 100 ⟨"car", 1, ⟨5, 5, 15, 15⟩⟩) 2)]
           object_history := [(4, [⟨0, 0, 10, 10⟩]),
             (5, [(denormalize 100 100 ⟨"car", 1, ⟨5, 5, 15, 15⟩⟩).bbox])]
           iou_threshold := 25/175, max_age := 30, min_hits := 3
           counted_objects := [], last_cleanup := 0, cleanup_interval := 60 },
         [(denormalize 100 100 ⟨"car", 1, ⟨5, 5, 15, 15⟩⟩, 5)]) :=
  ⟨C7_strict_threshold.2.1 [(4, ⟨⟨0, 0, 10, 10⟩, "car", 1, 1, 1, 1⟩)]
      ⟨"car", 1, ⟨5, 5, 15, 15⟩⟩ (25/175) (by decide),
   C7_strict_threshold.2.2.2
      { next_id := 5
        tracked_objects := [(4, ⟨⟨0, 0, 10, 10⟩, "car", 1, 1, 1, 1⟩)]
        object_history := [(4, [⟨0, 0, 10, 10⟩])]
        iou_threshold := 25/175, max_age := 30, min_hits := 3
        counted_objects := [], last_cleanup := 0, cleanup_interval := 60 }
      ⟨"car", 1, ⟨5, 5, 15, 15⟩⟩ 2 100 100 (by decide)⟩

/-! ### C6: class partition -/

theorem matchStep_eq_none {fid : Int} {thr : ℚ} {st : MatchState} {d : Detection}
    (hbm : bestMatch st.tracks d thr = none) :
    matchStep fid thr st d = { st with annotated := st.annotated ++ [(d, none)] } := by
  unfold matchStep
  rw [hbm]

theorem matchStep_eq_some {fid : Int} {thr : ℚ} {st : MatchState} {d : Detection} {j : Nat}
    (hbm : bestMatch st.tracks d thr = some j) :
    matchStep fid thr st d = MatchState.mk
      (updateEntry j
        (fun t => { t with bbox := d.bbox, confidence := d.confidence,
                           last_frame := fid, hits := t.hits + 1 }) st.tracks)
      (appendHistory j d.bbox st.history)
      (st.annotated ++ [(d, some j)]) := by
  unfold matchStep
  rw [hbm]

theorem matchStep_keys (fid : Int) (thr : ℚ) (st : MatchState) (d : Detection) :
    (matchStep fid thr st d).tracks.map Prod.fst = st.tracks.map Prod.fst := by
  cases hbm : bestMatch st.tracks d thr with
  | none => rw [matchStep_eq_none hbm]
  | some j =>
    rw [matchStep_eq_some hbm]
    exact keys_updateEntry _ _ _

theorem matchfold_keys (fid : Int) (thr : ℚ) (dets : List Detection) :
    ∀ st : MatchState,
      ((dets.foldl (matchStep fid thr) st).tracks).map Prod.fst = st.tracks.map Prod.fst := by
  induction dets with
  | nil => intro st; rfl
  | cons d rest ih =>
    intro st
    rw [List.foldl_cons, ih, matchStep_keys]

theorem matchStep_class_map (fid : Int) (thr : ℚ) (st : MatchState) (d : Detection) (id : Nat) :
    (lookupKey id (matchStep fid thr st d).tracks).map Track.class_name
      = (lookupKey id st.tracks).map Track.class_name := by
  cases hbm : bestMatch st.tracks d thr with
  | none => rw [matchStep_eq_none hbm]
  | some j =>
    rw [matchStep_eq_some hbm]
    by_cases hj : id = j
    · subst hj
      show (lookupKey id (updateEntry id _ st.tracks)).map Track.class_name = _
      rw [lookupKey_updateEntry_self]
      cases lookupKey id st.tracks <;> rfl
    · show (lookupKey id (updateEntry j _ st.tracks)).map Track.class_name = _
      rw [lookupKey_updateEntry_other _ _ hj]

theorem matchfold_class_map (fid : Int) (thr : ℚ) (dets : List Detection) :
    ∀ (st : MatchState) (id : Nat),
      (lookupKey id ((dets.foldl (matchStep fid thr) st).tracks)).map Track.class_name
        = (lookupKey id st.tracks).map Track.class_name := by
  induction dets with
  | nil => intro st id; rfl
  | cons d rest ih =>
    intro st id
    rw [List.foldl_cons, ih, matchStep_class_map]

theorem matchfold_annotated_class (fid : Int) (thr : ℚ) (dets : List Detection) :
    ∀ st : MatchState,
      (st.tracks.map Prod.fst).Nodup →
      (∀ p ∈ st.annotated, ∀ i : Nat, p.2 = some i →
        ∃ t, lookupKey i st.tracks = some t ∧ t.class_name = p.1.class_name) →
      ∀ p ∈ (dets.foldl (matchStep fid thr) st).annotated, ∀ i : Nat, p.2 = some i →
        ∃ t, lookupKey i ((dets.foldl (matchStep fid thr) st).tracks) = some t
          ∧ t.class_name = p.1.class_name := by
  induction dets with
  | nil => exact fun st _ hinv => hinv
  | cons d rest ih =>
    intro st hnd hinv
    rw [List.foldl_cons]
    refine ih (matchStep fid thr st d) (by rw [matchStep_keys]; exact hnd) ?_
    intro p hp i hpi
    have hcm := matchStep_class_map fid thr st d i
    cases hbm : bestMatch st.tracks d thr with
    | none =>
      rw [matchStep_eq_none hbm] at hp ⊢
      rcases List.mem_append.mp hp with hp' | hp'
      · obtain ⟨t, ht, hc⟩ := hinv p hp' i hpi
        exact ⟨t, ht, hc⟩
      · simp only [List.mem_singleton] at hp'
        subst hp'
        simp at hpi
    | some j =>
      rw [matchStep_eq_some hbm] at hp hcm ⊢
      rcases List.mem_append.mp hp with hp' | hp'
      · obtain ⟨t, ht, hc⟩ := hinv p hp' i hpi
        rw [ht] at hcm
        obtain ⟨t', ht', hc'⟩ := Option.map_eq_some'.mp hcm
        exact ⟨t', ht', by rw [hc', hc]⟩
      · simp only [List.mem_singleton] at hp'
        subst hp'
        simp only [Option.some.injEq] at hpi
        subst hpi
        have hbm' := hbm
        unfold bestMatch at hbm'
        rcases bestMatch_fold_mem d thr st.tracks (thr, none) j (le_refl thr) hbm'
          with h | ⟨t, hmem, hc, _⟩
        · exact absurd h (by simp)
        · have ht : lookupKey j st.tracks = some t := mem_lookupKey hnd hmem
          rw [ht] at hcm
          obtain ⟨t', ht', hc'⟩ := Option.map_eq_some'.mp hcm
          exact ⟨t', ht', by rw [hc', hc]⟩

theorem createNew_out_src (fid : Int) :
    ∀ (l : List (Detection × Option Nat)) (nid : Nat) (tracks : List (Nat × Track))
      (hist : List (Nat × List Box)),
      ∀ q ∈ (createNew fid nid tracks hist l).2.2.2, (q.1, some q.2) ∈ l ∨ nid ≤ q.2 := by
  intro l
  induction l with
  | nil =>
    intro nid tracks hist q hq
    simp [createNew] at hq
  | cons p rest ih =>
    intro nid tracks hist q hq
    match p with
    | (det, some i) =>
      simp only [createNew] at hq
      rcases List.mem_cons.mp hq with h | h
      · subst h
        left
        simp
      · rcases ih nid tracks hist q h with h1 | h1
        · exact Or.inl (List.mem_cons_of_mem _ h1)
        · exact Or.inr h1
    | (det, none) =>
      simp only [createNew] at hq
      rcases List.mem_cons.mp hq with h | h
      · subst h
        exact Or.inr (le_refl nid)
      · rcases ih (nid + 1) (tracks ++ [(nid, newTrack det fid)])
            (hist ++ [(nid, [det.bbox])]) q h with h1 | h1
        · exact Or.inl (List.mem_cons_of_mem _ h1)
        · exact Or.inr (by omega)

theorem createNew_out_pairwise (fid : Int) :
    ∀ (l : List (Detection × Option Nat)) (nid : Nat) (tracks : List (Nat × Track))
      (hist : List (Nat × List Box)),
      (∀ p ∈ l, ∀ i : Nat, p.2 = some i → i < nid) →
      List.Pairwise (fun a b : Detection × Nat => nid ≤ a.2 → nid ≤ b.2 → a.2 < b.2)
        ((createNew fid nid tracks hist l).2.2.2) := by
  intro l
  induction l with
  | nil =>
    intro nid tracks hist _
    simp [createNew]
  | cons p rest ih =>
    intro nid tracks hist hlt
    match p with
    | (det, some i) =>
      simp only [createNew]
      refine List.Pairwise.cons ?_ (ih nid tracks hist ?_)
      · intro b hb hle1 hle2
        have hi : i < nid := hlt (det, some i) (by simp) i rfl
        have hle1' : nid ≤ i := hle1
        omega
      · exact fun q hq iq hq2 => hlt q (List.mem_cons_of_mem _ hq) iq hq2
    | (det, none) =>
      simp only [createNew]
      refine List.Pairwise.cons ?_ ?_
      · intro b hb hle1 hle2
        show nid < b.2
        rcases createNew_out_src fid rest (nid + 1) (tracks ++ [(nid, newTrack det fid)])
            (hist ++ [(nid, [det.bbox])]) b hb with h | h
        · have : b.2 < nid := hlt (b.1, some b.2) (List.mem_cons_of_mem _ h) b.2 rfl
          omega
        · omega
      · refine List.Pairwise.imp_of_mem ?_
          (ih (nid + 1) (tracks ++ [(nid, newTrack det fid)])
            (hist ++ [(nid, [det.bbox])]) ?_)
        · intro a b ha hb hrel hle1 hle2
          rcases createNew_out_src fid rest (nid + 1) (tracks ++ [(nid, newTrack det fid)])
              (hist ++ [(nid, [det.bbox])]) a ha with h1 | h1
          · have : a.2 < nid := hlt (a.1, some a.2) (List.mem_cons_of_mem _ h1) a.2 rfl
            omega
          · rcases createNew_out_src fid rest (nid + 1) (tracks ++ [(nid, newTrack det fid)])
                (hist ++ [(nid, [det.bbox])]) b hb with h2 | h2
            · have : b.2 < nid := hlt (b.1, some b.2) (List.mem_cons_of_mem _ h2) b.2 rfl
              omega
            · exact hrel h1 h2
        · intro q hq iq hq2
          have := hlt q (List.mem_cons_of_mem _ hq) iq hq2
          omega

theorem preFilter_out (s : ObjectTracker) (dets : List Detection) (frame_id : Int)
    (img_h img_w : ℚ) :
    (s.preFilter dets frame_id img_h img_w).2
      = (createNew frame_id s.next_id
          ((dets.map (denormalize img_h img_w)).foldl (matchStep frame_id s.iou_threshold)
            ⟨s.tracked_objects, s.object_history, []⟩).tracks
          ((dets.map (denormalize img_h img_w)).foldl (matchStep frame_id s.iou_threshold)
            ⟨s.tracked_objects, s.object_history, []⟩).history
          ((dets.map (denormalize img_h img_w)).foldl (matchStep frame_id s.iou_threshold)
            ⟨s.tracked_objects, s.object_history, []⟩).annotated).2.2.2 := rfl

/-- **C6.**  Class labels partition the matching space: a detection
annotated with the id of a pre-existing track always has that track's
class label; hence two same-frame detections with different class labels
(identical boxes included) are never matched to the same existing track;
and newly created tracks (ids `≥ next_id`) receive pairwise distinct
fresh ids. -/
theorem C6_class_partition (s : ObjectTracker) (dets : List Detection) (frame_id : Int)
    (img_h img_w : ℚ)
    (hnd : (s.tracked_objects.map Prod.fst).Nodup)
    (hfresh : ∀ k ∈ s.tracked_objects.map Prod.fst, k < s.next_id) :
    (∀ p ∈ (s.preFilter dets frame_id img_h img_w).2, ∀ t0 : Track,
        lookupKey p.2 s.tracked_objects = some t0 → t0.class_name = p.1.class_name)
    ∧ (∀ p ∈ (s.preFilter dets frame_id img_h img_w).2,
        ∀ q ∈ (s.preFilter dets frame_id img_h img_w).2,
        p.2 = q.2 → (lookupKey p.2 s.tracked_objects).isSome →
        p.1.class_name = q.1.class_name)
    ∧ List.Pairwise (fun a b => s.next_id ≤ a.2 → s.next_id ≤ b.2 → a.2 ≠ b.2)
        (s.preFilter dets frame_id img_h img_w).2 := by
  have hkeys : ∀ i : Nat, ∀ p,
      p ∈ ((dets.map (denormalize img_h img_w)).foldl (matchStep frame_id s.iou_threshold)
        ⟨s.tracked_objects, s.object_history, []⟩).annotated → p.2 = some i →
      ∃ t, lookupKey i ((dets.map (denormalize img_h img_w)).foldl
          (matchStep frame_id s.iou_threshold)
          ⟨s.tracked_objects, s.object_history, []⟩).tracks = some t
        ∧ t.class_name = p.1.class_name := by
    intro i p hp hpi
    exact matchfold_annotated_class frame_id s.iou_threshold
      (dets.map (denormalize img_h img_w)) ⟨s.tracked_objects, s.object_history, []⟩
      hnd (by simp) p hp i hpi
  have haux : ∀ p ∈ (s.preFilter dets frame_id img_h img_w).2, ∀ t0 : Track,
      lookupKey p.2 s.tracked_objects = some t0 → t0.class_name = p.1.class_name := by
    intro p hp t0 hlk
    rw [preFilter_out] at hp
    rcases createNew_out_src frame_id _ s.next_id _ _ p hp with hsrc | hsrc
    · obtain ⟨t, ht, hc⟩ := hkeys p.2 (p.1, some p.2) hsrc rfl
      have hcm := matchfold_class_map frame_id s.iou_threshold
        (dets.map (denormalize img_h img_w)) ⟨s.tracked_objects, s.object_history, []⟩ p.2
      rw [ht] at hcm
      have hlk' : lookupKey p.2
          (MatchState.mk s.tracked_objects s.object_history []).tracks = some t0 := hlk
      rw [hlk'] at hcm
      simp only [Option.map_some'] at hcm
      have := Option.some.inj hcm
      rw [← hc, ← this]
    · have hmem : p.2 ∈ s.tracked_objects.map Prod.fst := by
        rcases Option.eq_none_or_eq_some (lookupKey p.2 s.tracked_objects) with h | ⟨v, h⟩
        · rw [h] at hlk
          exact absurd hlk (by simp)
        · exact List.mem_map.mpr ⟨(p.2, v), lookupKey_mem h, rfl⟩
      exact absurd (hfresh p.2 hmem) (by omega)
  refine ⟨haux, ?_, ?_⟩
  · intro p hp q hq hpq hsome
    obtain ⟨t0, ht0⟩ := Option.isSome_iff_exists.mp hsome
    have h1 := haux p hp t0 ht0
    have h2 := haux q hq t0 (by rw [← hpq]; exact ht0)
    rw [← h1, ← h2]
  · rw [preFilter_out]
    have hlt : ∀ p ∈ ((dets.map (denormalize img_h img_w)).foldl
        (matchStep frame_id s.iou_threshold)
        ⟨s.tracked_objects, s.object_history, []⟩).annotated,
        ∀ i : Nat, p.2 = some i → i < s.next_id := by
      intro p hp i hpi
      obtain ⟨t, ht, _⟩ := hkeys i p hp hpi
      have hmem : i ∈ ((dets.map (denormalize img_h img_w)).foldl
          (matchStep frame_id s.iou_threshold)
          ⟨s.tracked_objects, s.object_history, []⟩).tracks.map Prod.fst :=
        List.mem_map.mpr ⟨(i, t), lookupKey_mem ht, rfl⟩
      rw [matchfold_keys] at hmem
      exact hfresh i hmem
    exact (createNew_out_pairwise frame_id _ s.next_id _ _ hlt).imp
      (fun h h1 h2 => Nat.ne_of_lt (h h1 h2))

/-- Witness for C6: empty tracker, two identical-box detections with
different classes; both are unmatched and receive the distinct fresh ids
1 and 2. -/
theorem C6_class_partition_witness :
    ((([] : List (Nat × Track)).map Prod.fst).Nodup)
    ∧ List.Pairwise (fun a b => 1 ≤ a.2 → 1 ≤ b.2 → a.2 ≠ b.2)
        (ObjectTracker.preFilter
          { next_id := 1, tracked_objects := [], object_history := []
            iou_threshold := 3/10, max_age := 30, min_hits := 3
            counted_objects := [], last_cleanup := 0, cleanup_interval := 60 }
          [⟨"car", 1, ⟨0, 0, 10, 10⟩⟩, ⟨"accident", 1, ⟨0, 0, 10, 10⟩⟩] 1 100 100).2
    ∧ (ObjectTracker.preFilter
          { next_id := 1, tracked_objects := [], object_history := []
            iou_threshold := 3/10, max_age := 30, min_hits := 3
            counted_objects := [], last_cleanup := 0, cleanup_interval := 60 }
          [⟨"car", 1, ⟨0, 0, 10, 10⟩⟩, ⟨"accident", 1, ⟨0, 0, 10, 10⟩⟩] 1 100 100).2.map
        Prod.snd = [1, 2] :=
  ⟨by simp,
   (C6_class_partition
      { next_id := 1, tracked_objects := [], object_history := []
        iou_threshold := 3/10, max_age := 30, min_hits := 3
        counted_objects := [], last_cleanup := 0, cleanup_interval := 60 }
      [⟨"car", 1, ⟨0, 0, 10, 10⟩⟩, ⟨"accident", 1, ⟨0, 0, 10, 10⟩⟩] 1 100 100
      (by simp) (by simp)).2.2,
   by decide⟩

/-! ### C4: de-bounce -/

theorem filterCount_out (tracks : List (Nat × Track)) (mh : Nat) (now : Int)
    (l : List (Detection × Nat)) :
    ∀ counted, (filterCount tracks mh now counted l).2 = l.filter (keepDet tracks mh) := by
  induction l with
  | nil => intro c; rfl
  | cons p rest ih =>
    intro c
    cases hk : keepDet tracks mh p with
    | false => simp [filterCount, hk, List.filter_cons, ih]
    | true => simp [filterCount, hk, List.filter_cons, ih]

theorem keepDet_spec {tracks : List (Nat × Track)} {mh : Nat} {p : Detection × Nat}
    (h : keepDet tracks mh p = true) :
    ∃ t, lookupKey p.2 tracks = some t ∧ mh ≤ t.hits := by
  unfold keepDet at h
  cases hl : lookupKey p.2 tracks with
  | none =>
    rw [hl] at h
    simp at h
  | some t =>
    rw [hl] at h
    simp at h
    exact ⟨t, rfl, h.2⟩

theorem update_min_hits (s : ObjectTracker) (dets : List Detection) (frame_id : Int)
    (img_h img_w : ℚ) (now : Int) :
    (s.update dets frame_id img_h img_w now).1.min_hits = s.min_hits := by
  show (cleanup_old_objects false now (s.preFilter dets frame_id img_h img_w).1).min_hits
    = s.min_hits
  rw [(cleanup_state _ _ _).2.1, (preFilter_state _ _ _ _ _).2.1]

theorem update_out_hits (s : ObjectTracker) (dets : List Detection) (frame_id : Int)
    (img_h img_w : ℚ) (now : Int) :
    ∀ p ∈ (s.update dets frame_id img_h img_w now).2,
      ∃ t, lookupKey p.2 ((s.update dets frame_id img_h img_w now).1.tracked_objects) = some t
        ∧ s.min_hits ≤ t.hits := by
  intro p hp
  have hout : (s.update dets frame_id img_h img_w now).2
      = ((s.preFilter dets frame_id img_h img_w).2).filter
          (keepDet
            (cleanup_old_objects false now
              (s.preFilter dets frame_id img_h img_w).1).tracked_objects
            (cleanup_old_objects false now
              (s.preFilter dets frame_id img_h img_w).1).min_hits) := by
    rw [show (s.update dets frame_id img_h img_w now).2
        = (filterCount
            (cleanup_old_objects false now
              (s.preFilter dets frame_id img_h img_w).1).tracked_objects
            (cleanup_old_objects false now
              (s.preFilter dets frame_id img_h img_w).1).min_hits now
            (cleanup_old_objects false now
              (s.preFilter dets frame_id img_h img_w).1).counted_objects
            (s.preFilter dets frame_id img_h img_w).2).2 from rfl]
    rw [filterCount_out]
  rw [hout] at hp
  have hk := (List.mem_filter.mp hp).2
  obtain ⟨t, ht, hge⟩ := keepDet_spec hk
  refine ⟨t, ht, ?_⟩
  have hmh : (cleanup_old_objects false now
      (s.preFilter dets frame_id img_h img_w).1).min_hits = s.min_hits := by
    rw [(cleanup_state _ _ _).2.1, (preFilter_state _ _ _ _ _).2.1]
  rw [hmh] at hge
  exact hge

theorem update_counted_keys (s : ObjectTracker) (dets : List Detection) (frame_id : Int)
    (img_h img_w : ℚ) (now : Int) (id : Nat) :
    id ∈ ((s.update dets frame_id img_h img_w now).1.counted_objects.map Prod.fst) →
    id ∈ s.counted_objects.map Prod.fst
    ∨ id ∈ ((s.update dets frame_id img_h img_w now).2.map Prod.snd) := by
  have h1 : (cleanup_old_objects false now
      (s.preFilter dets frame_id img_h img_w).1).counted_objects = s.counted_objects := by
    rw [(cleanup_state _ _ _).1]
    exact (preFilter_state _ _ _ _ _).1
  simp only [update_eq]
  rw [h1]
  exact filterCount_counted_keys _ _ _ _ _ id

theorem runSequence_cons (s : ObjectTracker) (c : CallInput) (rest : List CallInput) :
    runSequence s (c :: rest)
      = ((runSequence (s.update c.dets c.frame_id c.img_h c.img_w c.now).1 rest).1,
         (s.update c.dets c.frame_id c.img_h c.img_w c.now).2
           :: (runSequence (s.update c.dets c.frame_id c.img_h c.img_w c.now).1 rest).2) := rfl

/-- **C4.**  De-bounce: if a track id's hit count stays below `min_hits`
after every prefix of a call sequence, then no detection annotated with
that id ever appears in any `update` return value and the id never enters
the counted ledger; moreover each single call returns exactly the
annotated detections passing the `hit_count >= min_hits` filter. -/
theorem C4_debounce (s0 : ObjectTracker) (calls : List CallInput) (id : Nat)
    (hnever : ∀ (n : Nat) (t : Track),
      lookupKey id ((runSequence s0 (calls.take n)).1.tracked_objects) = some t →
      t.hits < s0.min_hits)
    (hinit : lookupKey id s0.counted_objects = none) :
    lookupKey id ((runSequence s0 calls).1.counted_objects) = none
    ∧ (∀ out ∈ (runSequence s0 calls).2, ∀ p ∈ out, p.2 ≠ id)
    ∧ (∀ (s : ObjectTracker) (dets : List Detection) (frame_id : Int) (img_h img_w : ℚ)
        (now : Int),
        (s.update dets frame_id img_h img_w now).2
          = ((s.preFilter dets frame_id img_h img_w).2).filter
              (keepDet
                (cleanup_old_objects false now
                  (s.preFilter dets frame_id img_h img_w).1).tracked_objects
                s.min_hits)) := by
  have hthird : ∀ (s : ObjectTracker) (dets : List Detection) (frame_id : Int)
      (img_h img_w : ℚ) (now : Int),
      (s.update dets frame_id img_h img_w now).2
        = ((s.preFilter dets frame_id img_h img_w).2).filter
            (keepDet
              (cleanup_old_objects false now
                (s.preFilter dets frame_id img_h img_w).1).tracked_objects
              s.min_hits) := by
    intro s dets frame_id img_h img_w now
    have hmh : (cleanup_old_objects false now
        (s.preFilter dets frame_id img_h img_w).1).min_hits = s.min_hits := by
      rw [(cleanup_state _ _ _).2.1, (preFilter_state _ _ _ _ _).2.1]
    rw [← hmh]
    rw [show (s.update dets frame_id img_h img_w now).2
        = (filterCount
            (cleanup_old_objects false now
              (s.preFilter dets frame_id img_h img_w).1).tracked_objects
            (cleanup_old_objects false now
              (s.preFilter dets frame_id img_h img_w).1).min_hits now
            (cleanup_old_objects false now
              (s.preFilter dets frame_id img_h img_w).1).counted_objects
            (s.preFilter dets frame_id img_h img_w).2).2 from rfl]
    rw [filterCount_out]
  have hmain : ∀ (cs : List CallInput) (s : ObjectTracker),
      (∀ (n : Nat) (t : Track),
        lookupKey id ((runSequence s (cs.take n)).1.tracked_objects) = some t →
        t.hits < s.min_hits) →
      lookupKey id s.counted_objects = none →
      lookupKey id ((runSequence s cs).1.counted_objects) = none
      ∧ ∀ out ∈ (runSequence s cs).2, ∀ p ∈ out, p.2 ≠ id := by
    intro cs
    induction cs with
    | nil =>
      intro s _ hin
      exact ⟨hin, by simp [runSequence]⟩
    | cons c rest ih =>
      intro s hnev hin
      have hA : ∀ p ∈ (s.update c.dets c.frame_id c.img_h c.img_w c.now).2, p.2 ≠ id := by
        intro p hp heq
        obtain ⟨t, ht, hge⟩ := update_out_hits s c.dets c.frame_id c.img_h c.img_w c.now p hp
        rw [heq] at ht
        have hlt := hnev 1 t ht
        omega
      have hB : lookupKey id
          (s.update c.dets c.frame_id c.img_h c.img_w c.now).1.counted_objects = none := by
        rcases Option.eq_none_or_eq_some (lookupKey id
            (s.update c.dets c.frame_id c.img_h c.img_w c.now).1.counted_objects)
          with h | ⟨v, h⟩
        · exact h
        · exfalso
          have hk : id ∈ ((s.update c.dets c.frame_id c.img_h c.img_w c.now).1.counted_objects.map
              Prod.fst) := List.mem_map.mpr ⟨(id, v), lookupKey_mem h, rfl⟩
          rcases update_counted_keys s c.dets c.frame_id c.img_h c.img_w c.now id hk
            with h1 | h1
          · exact ((lookupKey_none_iff _ _).mp hin) h1
          · obtain ⟨p, hp, hpe⟩ := List.mem_map.mp h1
            exact hA p hp hpe
      have hC : ∀ (n : Nat) (t : Track),
          lookupKey id ((runSequence
            (s.update c.dets c.frame_id c.img_h c.img_w c.now).1
            (rest.take n)).1.tracked_objects) = some t →
          t.hits < (s.update c.dets c.frame_id c.img_h c.img_w c.now).1.min_hits := by
        intro n t ht
        rw [update_min_hits]
        refine hnev (n + 1) t ?_
        rw [List.take_succ_cons]
        exact ht
      obtain ⟨hc1, hc2⟩ := ih (s.update c.dets c.frame_id c.img_h c.img_w c.now).1 hC hB
      rw [runSequence_cons]
      refine ⟨hc1, ?_⟩
      intro out hout p hp
      rcases List.mem_cons.mp hout with h | h
      · subst h
        exact hA p hp
      · exact hc2 out h p hp
  obtain ⟨h1, h2⟩ := hmain calls s0 hnever hinit
  exact ⟨h1, h2, hthird⟩

/-- Concrete tracker for the C4 witness. -/
def debounceState : ObjectTracker :=
  { next_id := 1, tracked_objects := [], object_history := []
    iou_threshold := 3/10, max_age := 30, min_hits := 3
    counted_objects := [], last_cleanup := 0, cleanup_interval := 60 }

/-- Concrete single call for the C4 witness: one "car" detection. -/
def debounceCall : CallInput := ⟨[⟨"car", 1, ⟨0, 0, 10, 10⟩⟩], 1, 100, 100, 5⟩

/-- Witness for C4: an empty tracker sees one "car" detection exactly
once (`min_hits = 3`); the created track has one hit, so the id 1 is
never returned and never counted. -/
theorem C4_debounce_witness :
    (∀ (n : Nat) (t : Track),
      lookupKey 1 ((runSequence debounceState ([debounceCall].take n)).1.tracked_objects)
        = some t → t.hits < debounceState.min_hits)
    ∧ lookupKey 1 ((runSequence debounceState [debounceCall]).1.counted_objects) = none
    ∧ (∀ out ∈ (runSequence debounceState [debounceCall]).2, ∀ p ∈ out, p.2 ≠ 1) := by
  have hnever : ∀ (n : Nat) (t : Track),
      lookupKey 1 ((runSequence debounceState ([debounceCall].take n)).1.tracked_objects)
        = some t → t.hits < debounceState.min_hits := by
    intro n t ht
    cases n with
    | zero =>
      rw [List.take_zero] at ht
      have hz : lookupKey 1 ((runSequence debounceState
          ([] : List CallInput)).1.tracked_objects) = none := by decide
      rw [hz] at ht
      cases ht
    | succ m =>
      rw [List.take_succ_cons, List.take_nil] at ht
      have ho : lookupKey 1 ((runSequence debounceState [debounceCall]).1.tracked_objects)
          = some ⟨⟨0, 0, 10, 10⟩, "car", 1, 1, 1, 1⟩ := by decide
      rw [ho] at ht
      cases ht
      decide
  obtain ⟨h1, h2, _⟩ := C4_debounce debounceState [debounceCall] 1 hnever rfl
  exact ⟨hnever, h1, h2⟩

/-- Witness for C9 at concrete detections: a pixel-coordinate box is left
unchanged, a normalized box is scaled by width/height. -/
theorem C9_denormalize_witness :
    denormalize 100 200 ⟨"car", 1, ⟨2, 3, 10, 12⟩⟩ = ⟨"car", 1, ⟨2, 3, 10, 12⟩⟩
    ∧ denormalize 100 200 ⟨"car", 1, ⟨0, 0, 1, 1⟩⟩
      = { (⟨"car", 1, ⟨0, 0, 1, 1⟩⟩ : Detection) with
          bbox := ⟨0 * 200, 0 * 100, 1 * 200, 1 * 100⟩ } :=
  ⟨(C9_denormalize 100 200 ⟨"car", 1, ⟨2, 3, 10, 12⟩⟩).1
      (Or.inr (Or.inr (Or.inl (by norm_num)))),
   (C9_denormalize 100 200 ⟨"car", 1, ⟨0, 0, 1, 1⟩⟩).2.1 (by norm_num)⟩
